import Mathlib

/-!
Verification of the prefixed filesystem key-value store of this repository
(the `data` module: `get`, `set`, `has`, `remove` and the prefix registry),
as described by the specification and exercised by `lib/data/data.spec.coffee`.

The `data` module itself is not among the provided source files; only its
test suite is. The definitions below are therefore modelled from the
specification (its component design in sections 2-4 and error design in
section 7), kept faithful to the behaviour the test suite observes.
-/

/-- Modelled from the spec: the error kinds of section 7 of the missing
`data` module (`NotInitialized`, `InvalidKey`, `NotFound`, `InvalidTarget`,
`IOError`). -/
inductive DataError where
  | NotInitialized
  | InvalidKey
  | NotFound
  | InvalidTarget
  | IOError
deriving DecidableEq, Repr

/-- Modelled from the spec: the filesystem seen by the missing
FilesystemAdapter, as a tree whose leaves are files holding raw byte
content (represented by the string of characters those bytes encode) and
whose nodes are directories with named children. -/
inductive FSTree where
  | file (contents : String)
  | dir (children : List (String × FSTree))
deriving Repr

/-- Look up the child of the given name in a directory listing. -/
def findChild : List (String × FSTree) → String → Option FSTree
  | [], _ => none
  | c :: cs, n => if c.1 = n then some c.2 else findChild cs n

/-- Replace the child of the given name, or append it if absent. -/
def setChild : List (String × FSTree) → String → FSTree → List (String × FSTree)
  | [], n, t => [(n, t)]
  | c :: cs, n, t => if c.1 = n then (n, t) :: cs else c :: setChild cs n t

/-- Modelled from the spec: the existence / directory probe of the missing
FilesystemAdapter. `lookup t p` is the entry at path `p` below `t`, if any. -/
def FSTree.lookup : FSTree → List String → Option FSTree
  | t, [] => some t
  | .file _, _ :: _ => none
  | .dir cs, n :: rest =>
    match findChild cs n with
    | none => none
    | some t => t.lookup rest

/-- Modelled from the spec: the write primitive of the missing
FilesystemAdapter. Creates every missing intermediate directory, truncates
and overwrites an existing file at the target, and fails (`none`, an
`IOError` at the store level) when a path component is occupied by a file,
when the target is an existing directory, or when the path addresses the
filesystem root itself. -/
def FSTree.write : FSTree → List String → String → Option FSTree
  | _, [], _ => none
  | .file _, _ :: _, _ => none
  | .dir cs, [n], v =>
    match findChild cs n with
    | some (.dir _) => none
    | _ => some (.dir (setChild cs n (.file v)))
  | .dir cs, n :: m :: rest, v =>
    match findChild cs n with
    | some (.file _) => none
    | some (.dir cs2) =>
      Option.map (fun t => FSTree.dir (setChild cs n t)) ((FSTree.dir cs2).write (m :: rest) v)
    | none =>
      Option.map (fun t => FSTree.dir (setChild cs n t)) ((FSTree.dir []).write (m :: rest) v)

/-- Modelled from the spec: the recursive deletion primitive of the missing
FilesystemAdapter. Removes the entry at the path (a file, or a directory
with its whole subtree); a path addressing a missing entry leaves the tree
unchanged. -/
def FSTree.erase : FSTree → List String → FSTree
  | t, [] => t
  | .file c, _ :: _ => .file c
  | .dir cs, [n] => .dir (cs.filter (fun c => !(c.1 == n)))
  | .dir cs, n :: m :: rest =>
    .dir (cs.map (fun c => if c.1 = n then (c.1, c.2.erase (m :: rest)) else c))

/-- Whether an optional filesystem entry is an existing file. -/
def isFileEntry : Option FSTree → Bool
  | some (.file _) => true
  | _ => false

/-- Whether an optional filesystem entry is an existing directory. -/
def isDirEntry : Option FSTree → Bool
  | some (.dir _) => true
  | _ => false

/-- Split a list of characters at every separator character. -/
def splitSegsAux : List Char → List Char → List (List Char)
  | [], cur => [cur.reverse]
  | c :: rest, cur =>
    if c = '/' then cur.reverse :: splitSegsAux rest [] else splitSegsAux rest (c :: cur)

/-- Modelled from the spec: the segmentation of a path string performed by
the missing PathResolver — split on the separator, dropping empty
segments. -/
def segsOf (s : String) : List String :=
  ((splitSegsAux s.data []).map (fun cs => String.mk cs)).filter (fun seg => !(seg == ""))

/-- One step of path normalization: `.` is dropped, `..` removes the last
segment (staying at the filesystem root when there is none), anything else
is appended. -/
def normStep (acc : List String) (seg : String) : List String :=
  if seg = "." then acc
  else if seg = ".." then acc.dropLast
  else acc ++ [seg]

/-- Modelled from the spec: the normalization the missing PathResolver
applies to a joined path (section 4.2, "normalized"), with the usual
absolute-path semantics for `.` and `..` segments. -/
def normalizePath (segs : List String) : List String := segs.foldl normStep []

/-- Modelled from the spec: the ResolvedPath of the data model — the root
joined with the key's segments, normalized. -/
def resolveKey (root key : String) : List String := normalizePath (segsOf root ++ segsOf key)

/-- Modelled from the spec: the text encodings a caller may request; the
test suite and spec only ever use UTF-8. On this representation of byte
content, UTF-8 decoding is the identity. -/
inductive Encoding where
  | utf8
deriving DecidableEq, Repr

/-- Decode raw byte content with a text encoding. -/
def decodeWith : Encoding → String → String
  | .utf8, s => s

/-- Encode a text value into raw byte content with a text encoding. -/
def encodeWith : Encoding → String → String
  | .utf8, s => s

/-- Modelled from the spec: the options object of `get`/`set`, carrying an
optional text encoding. -/
structure DataOptions where
  encoding : Option Encoding
deriving DecidableEq, Repr

/-- Modelled from the spec: a StoredValue — the raw byte content of a file,
decoded into text when a text encoding was requested. -/
inductive StoredValue where
  | text (s : String)
  | bytes (s : String)
deriving DecidableEq, Repr

/-- Modelled from the spec: the outcome of a store operation, keeping the
two error channels distinct — `thrown` is a synchronous throw (programmer
error, section 7), `err` is an error delivered through the asynchronous
result channel, `ok` a delivered value. -/
inductive Outcome (α : Type) where
  | thrown (e : DataError)
  | err (e : DataError)
  | ok (v : α)
deriving DecidableEq, Repr

/-- Modelled from the spec: the state the store operates on — the
PrefixRegistry (`none` is `Unset`, `some root` is `Set(root)`) together
with the filesystem tree. -/
structure DataState where
  reg : Option String
  fs : FSTree

namespace Data

/-- Modelled from the spec: `PrefixRegistry.set` (`data.prefix.set` in the
missing module) — records the root, replacing any previous value, with no
effect on the filesystem. -/
def registrySet (st : DataState) (root : String) : DataState :=
  { st with reg := some root }

/-- Modelled from the spec: `PrefixRegistry.clear` (`data.prefix.clear` in
the missing module) — resets the registry to `Unset`, with no effect on the
filesystem. -/
def registryClear (st : DataState) : DataState :=
  { st with reg := none }

/-- Modelled from the spec: `PathResolver.resolve` of the missing module —
throws `NotInitialized` when the registry is unset, throws `InvalidKey` on
an empty key, and otherwise resolves the key against the root. -/
def resolve (st : DataState) (key : String) : Outcome (List String) :=
  match st.reg with
  | none => .thrown .NotInitialized
  | some root => if key = "" then .thrown .InvalidKey else .ok (resolveKey root key)

/-- Modelled from the spec: `data.get` of the missing module — resolves the
key; `NotFound` when nothing exists there, `InvalidTarget` when the entry
is a directory, otherwise the file's content, decoded per the requested
encoding or returned as raw bytes. -/
def get (st : DataState) (key : String) (opts : DataOptions) : Outcome StoredValue :=
  match resolve st key with
  | .thrown e => .thrown e
  | .err e => .err e
  | .ok p =>
    match st.fs.lookup p with
    | none => .err .NotFound
    | some (.dir _) => .err .InvalidTarget
    | some (.file c) =>
      match opts.encoding with
      | some e => .ok (.text (decodeWith e c))
      | none => .ok (.bytes c)

/-- Modelled from the spec: `data.has` of the missing module — resolves the
key and answers whether a filesystem entry (file or directory) exists
there; existence-or-not is the answer itself, never an error. -/
def has (st : DataState) (key : String) : Outcome Bool :=
  match resolve st key with
  | .thrown e => .thrown e
  | .err e => .err e
  | .ok p => .ok (st.fs.lookup p).isSome

/-- Modelled from the spec: `data.set` of the missing module — resolves the
key, creates every missing intermediate directory, and writes the value
(encoded per the requested encoding; UTF-8 is the identity on this
representation) to the resolved file path, truncating any existing file;
`IOError` on an underlying filesystem failure. Returns the outcome together
with the post-state. -/
def set (st : DataState) (key : String) (value : String) (opts : DataOptions) :
    Outcome Unit × DataState :=
  match resolve st key with
  | .thrown e => (.thrown e, st)
  | .err e => (.err e, st)
  | .ok p =>
    match st.fs.write p (match opts.encoding with | some e => encodeWith e value | none => value) with
    | none => (.err .IOError, st)
    | some fs2 => (.ok (), { st with fs := fs2 })

/-- Modelled from the spec: `data.remove` of the missing module — resolves
the key; `NotFound` when nothing exists at the resolved path; otherwise
deletes the entry (a directory with all of its contents recursively, or the
file); deleting the filesystem root itself is an underlying failure
(`IOError`). Returns the outcome together with the post-state. -/
def remove (st : DataState) (key : String) : Outcome Unit × DataState :=
  match resolve st key with
  | .thrown e => (.thrown e, st)
  | .err e => (.err e, st)
  | .ok p =>
    match st.fs.lookup p with
    | none => (.err .NotFound, st)
    | some _ =>
      if p = [] then (.err .IOError, st) else (.ok (), { st with fs := st.fs.erase p })

end Data

/-- After replacing the child named `n`, looking up `n` yields the new
child. -/
theorem findChild_setChild_self (cs : List (String × FSTree)) (n : String) (t : FSTree) :
    findChild (setChild cs n t) n = some t := by
  induction cs with
  | nil => simp [setChild, findChild]
  | cons c cs ih =>
    by_cases h : c.1 = n
    · simp [setChild, h, findChild]
    · simp [setChild, h, findChild, ih]

/-- A successful write places the written file at the written path. -/
theorem lookup_write : ∀ (p : List String) (t t2 : FSTree) (v : String),
    t.write p v = some t2 → t2.lookup p = some (.file v)
  | [], _, _, _, h => by simp [FSTree.write] at h
  | [_], .file _, _, _, h => by simp [FSTree.write] at h
  | [n], .dir cs, t2, v, h => by
    cases hf : findChild cs n with
    | none =>
      simp [FSTree.write, hf] at h
      subst h
      simp [FSTree.lookup, findChild_setChild_self]
    | some u =>
      cases u with
      | file c =>
        simp [FSTree.write, hf] at h
        subst h
        simp [FSTree.lookup, findChild_setChild_self]
      | dir cs2 => simp [FSTree.write, hf] at h
  | _ :: _ :: _, .file _, _, _, h => by simp [FSTree.write] at h
  | n :: m :: rest, .dir cs, t2, v, h => by
    cases hf : findChild cs n with
    | none =>
      cases hw : (FSTree.dir []).write (m :: rest) v with
      | none => simp [FSTree.write, hf, hw] at h
      | some u =>
        simp [FSTree.write, hf, hw] at h
        subst h
        simpa [FSTree.lookup, findChild_setChild_self] using
          lookup_write (m :: rest) (FSTree.dir []) u v hw
    | some w =>
      cases w with
      | file c => simp [FSTree.write, hf] at h
      | dir cs2 =>
        cases hw : (FSTree.dir cs2).write (m :: rest) v with
        | none => simp [FSTree.write, hf, hw] at h
        | some u =>
          simp [FSTree.write, hf, hw] at h
          subst h
          simpa [FSTree.lookup, findChild_setChild_self] using
            lookup_write (m :: rest) (FSTree.dir cs2) u v hw

/-- Writing below an empty directory always succeeds: every missing
intermediate directory is created. -/
theorem write_fresh : ∀ (p : List String) (v : String), p ≠ [] →
    ∃ t2, (FSTree.dir []).write p v = some t2
  | [], _, hne => absurd rfl hne
  | [n], v, _ =>
    ⟨FSTree.dir (setChild [] n (FSTree.file v)), by simp [FSTree.write, findChild]⟩
  | n :: m :: rest, v, _ => by
    obtain ⟨t2, ht2⟩ := write_fresh (m :: rest) v (by simp)
    exact ⟨FSTree.dir (setChild [] n t2), by simp [FSTree.write, findChild, ht2]⟩

/-- A write succeeds exactly under the spec's `set` preconditions: the path
is not the filesystem root, no proper prefix of it is occupied by a file,
and the target itself is not an existing directory. This covers a fresh
file below existing directories, missing intermediate directories, and
overwriting an existing file. -/
theorem write_total : ∀ (p : List String) (t : FSTree) (v : String), p ≠ [] →
    (∀ q, q <+: p → q ≠ p → isFileEntry (t.lookup q) = false) →
    isDirEntry (t.lookup p) = false →
    ∃ t2, t.write p v = some t2
  | [], _, _, hne, _, _ => absurd rfl hne
  | [n], .file c, v, _, hpar, _ => by
    have hq := hpar [] List.nil_prefix (by simp)
    simp [FSTree.lookup, isFileEntry] at hq
  | [n], .dir cs, v, _, _, htgt => by
    cases hf : findChild cs n with
    | none => exact ⟨FSTree.dir (setChild cs n (FSTree.file v)), by simp [FSTree.write, hf]⟩
    | some u =>
      cases u with
      | file c => exact ⟨FSTree.dir (setChild cs n (FSTree.file v)), by simp [FSTree.write, hf]⟩
      | dir cs2 => simp [FSTree.lookup, hf, isDirEntry] at htgt
  | n :: m :: rest, .file c, v, _, hpar, _ => by
    have hq := hpar [] List.nil_prefix (by simp)
    simp [FSTree.lookup, isFileEntry] at hq
  | n :: m :: rest, .dir cs, v, _, hpar, htgt => by
    cases hf : findChild cs n with
    | none =>
      obtain ⟨t2, ht2⟩ := write_fresh (m :: rest) v (by simp)
      exact ⟨FSTree.dir (setChild cs n t2), by simp [FSTree.write, hf, ht2]⟩
    | some u =>
      cases u with
      | file c =>
        have hq := hpar [n] ⟨m :: rest, rfl⟩ (by simp)
        simp [FSTree.lookup, hf, isFileEntry] at hq
      | dir cs2 =>
        have hpar2 : ∀ q, q <+: m :: rest → q ≠ m :: rest →
            isFileEntry ((FSTree.dir cs2).lookup q) = false := by
          intro q hq hne2
          obtain ⟨t0, ht0⟩ := hq
          have hq2 : n :: q <+: n :: m :: rest := ⟨t0, by rw [List.cons_append, ht0]⟩
          have hne3 : n :: q ≠ n :: m :: rest := by simp [hne2]
          have := hpar (n :: q) hq2 hne3
          simpa [FSTree.lookup, hf] using this
        have htgt2 : isDirEntry ((FSTree.dir cs2).lookup (m :: rest)) = false := by
          simpa [FSTree.lookup, hf] using htgt
        obtain ⟨t2, ht2⟩ := write_total (m :: rest) (FSTree.dir cs2) v (by simp) hpar2 htgt2
        exact ⟨FSTree.dir (setChild cs n t2), by simp [FSTree.write, hf, ht2]⟩

/-- Filtering out the child named `n` makes it unfindable. -/
theorem findChild_filter_self (cs : List (String × FSTree)) (n : String) :
    findChild (cs.filter (fun c => !(c.1 == n))) n = none := by
  induction cs with
  | nil => simp [findChild]
  | cons c cs ih =>
    by_cases h : c.1 = n
    · simp [List.filter_cons, beq_iff_eq, h, ih]
    · simp [List.filter_cons, beq_iff_eq, h, findChild, ih]

/-- Mapping the erase of a tail path over the child named `n` commutes with
looking that child up. -/
theorem findChild_map_erase (cs : List (String × FSTree)) (n : String) (q : List String) :
    findChild (cs.map (fun c => if c.1 = n then (c.1, c.2.erase q) else c)) n
      = (findChild cs n).map (fun t => t.erase q) := by
  induction cs with
  | nil => simp [findChild]
  | cons c cs ih =>
    by_cases h : c.1 = n
    · simp [findChild, h]
    · simp [findChild, h, ih]

/-- After erasing a (non-root) path, nothing exists at that path. -/
theorem lookup_erase : ∀ (p : List String) (t : FSTree), p ≠ [] →
    (t.erase p).lookup p = none
  | [], _, hne => absurd rfl hne
  | [n], .file c, _ => by simp [FSTree.erase, FSTree.lookup]
  | [n], .dir cs, _ => by simp [FSTree.erase, FSTree.lookup, findChild_filter_self]
  | _ :: _ :: _, .file _, _ => by simp [FSTree.erase, FSTree.lookup]
  | n :: m :: rest, .dir cs, _ => by
    cases hf : findChild cs n with
    | none => simp [FSTree.erase, FSTree.lookup, findChild_map_erase, hf]
    | some u =>
      simp [FSTree.erase, FSTree.lookup, findChild_map_erase, hf]
      exact lookup_erase (m :: rest) u (by simp)

/-- Resolution only reads the registry: updating the filesystem component
of the state does not change it. -/
theorem resolve_fs_update (st : DataState) (f : FSTree) (k : String) :
    Data.resolve { st with fs := f } k = Data.resolve st k := rfl

/-- Normalization of segments containing no dot-dot just appends the
non-dot segments. -/
theorem foldl_normStep_no_dotdot : ∀ (s acc : List String), ".." ∉ s →
    s.foldl normStep acc = acc ++ s.filter (fun x => !(x == "."))
  | [], acc, _ => by simp
  | x :: s, acc, h => by
    have hx : x ≠ ".." := by
      intro hcon
      exact h (hcon ▸ List.mem_cons_self x s)
    have hs : ".." ∉ s := fun hm => h (List.mem_cons_of_mem _ hm)
    by_cases hdot : x = "."
    · subst hdot
      simp [List.foldl_cons, normStep, foldl_normStep_no_dotdot s acc hs, List.filter_cons]
    · simp [List.foldl_cons, normStep, hdot, hx, foldl_normStep_no_dotdot s (acc ++ [x]) hs,
        List.filter_cons, beq_iff_eq]

/-- A list is a Boolean prefix of itself followed by anything. -/
theorem isPrefixOf_append_self : ∀ (l t : List String), l.isPrefixOf (l ++ t) = true
  | [], _ => by simp [List.isPrefixOf]
  | x :: l, t => by simp [List.isPrefixOf, isPrefixOf_append_self l t]

/-- The fixture filesystem of `data.spec.coffee`: the root `~/.resin`
holding a text file, a directory and a nested text file. -/
def sampleFS : FSTree :=
  .dir [("~", .dir [(".resin", .dir
    [("text", .file "Hello World"),
     ("directory", .dir []),
     ("nested", .dir [("text", .file "Nested Hello World")])])])]

/-- The fixture state: registry set to `~/.resin` over the fixture
filesystem. -/
def sampleState : DataState := ⟨some "~/.resin", sampleFS⟩

/-- A state with the registry set and an empty filesystem. -/
def emptyState : DataState := ⟨some "~/.resin", .dir []⟩

/-- A state with the registry unset (`Unset`), over the fixture
filesystem. -/
def unsetState : DataState := ⟨none, sampleFS⟩

/-- Modelled from the spec: the pair of arguments (error, value) that a
completed `get` passes to its Node-style callback — `none` when the call
throws synchronously instead of reaching the callback. -/
def getCallbackArgs (st : DataState) (key : String) (opts : DataOptions) :
    Option (Option DataError × Option StoredValue) :=
  match Data.get st key opts with
  | .thrown _ => none
  | .err e => some (some e, none)
  | .ok v => some (none, some v)

/-- C1: Round-trip — with the prefix registry Set, whenever `set(k, v)`
succeeds, a following `get(k)` with the same text encoding succeeds and
returns exactly the text value `v`. -/
theorem C1_set_get_roundtrip (st st2 : DataState) (k v : String) (e : Encoding)
    (h : Data.set st k v ⟨some e⟩ = (.ok (), st2)) :
    Data.get st2 k ⟨some e⟩ = .ok (.text v) := by
  cases e
  unfold Data.set at h
  cases hr : Data.resolve st k with
  | thrown e2 => simp [hr] at h
  | err e2 => simp [hr] at h
  | ok p =>
    rw [hr] at h
    simp only [encodeWith] at h
    cases hw : st.fs.write p v with
    | none => simp [hw] at h
    | some fs2 =>
      simp [hw] at h
      have hl := lookup_write p st.fs fs2 v hw
      rw [← h]
      simp [Data.get, resolve_fs_update, hr, hl, decodeWith]

/-- Witness for C1: on an empty store, writing and re-reading the nested
fixture key returns the written text. -/
theorem C1_witness :
    Data.get (Data.set emptyState "nested/hello_world.test" "Nested Hello World!"
        ⟨some .utf8⟩).2 "nested/hello_world.test" ⟨some .utf8⟩
      = .ok (.text "Nested Hello World!") :=
  C1_set_get_roundtrip emptyState
    ((Data.set emptyState "nested/hello_world.test" "Nested Hello World!" ⟨some .utf8⟩).2)
    "nested/hello_world.test" "Nested Hello World!" .utf8 rfl

/-- C2: with the registry Unset, `get`, `has`, `set` and `remove` all fail
with `NotInitialized`, whatever the key, value and prior filesystem; the
failure is a synchronous throw (the `thrown` channel, not the asynchronous
`err` channel) and the state — in particular the filesystem — is returned
untouched. -/
theorem C2_unset_not_initialized (st : DataState) (k v : String) (opts : DataOptions)
    (h : st.reg = none) :
    Data.get st k opts = .thrown .NotInitialized ∧
    Data.has st k = .thrown .NotInitialized ∧
    Data.set st k v opts = (.thrown .NotInitialized, st) ∧
    Data.remove st k = (.thrown .NotInitialized, st) := by
  simp [Data.get, Data.has, Data.set, Data.remove, Data.resolve, h]

/-- Witness for C2 at the fixture key of the test suite. -/
theorem C2_witness :
    Data.get unsetState "foobar" ⟨some .utf8⟩ = .thrown .NotInitialized ∧
    Data.has unsetState "foobar" = .thrown .NotInitialized ∧
    Data.set unsetState "foobar" "Foo Bar!" ⟨some .utf8⟩ = (.thrown .NotInitialized, unsetState) ∧
    Data.remove unsetState "foobar" = (.thrown .NotInitialized, unsetState) :=
  C2_unset_not_initialized unsetState "foobar" "Foo Bar!" ⟨some .utf8⟩ rfl

/-- C3: `get` contract — with the registry Set and a nonempty key, `get`
fails with `NotFound` when nothing exists at the resolved path, fails with
`InvalidTarget` when the entry there is a directory, and otherwise returns
the file content, decoded per the requested text encoding or returned as
raw bytes when no encoding is requested. -/
theorem C3_get_contract (st : DataState) (root k : String) (opts : DataOptions)
    (hr : st.reg = some root) (hk : k ≠ "") :
    (st.fs.lookup (resolveKey root k) = none → Data.get st k opts = .err .NotFound) ∧
    (∀ cs, st.fs.lookup (resolveKey root k) = some (.dir cs) →
      Data.get st k opts = .err .InvalidTarget) ∧
    (∀ c, st.fs.lookup (resolveKey root k) = some (.file c) →
      Data.get st k opts =
        .ok (match opts.encoding with
          | some e => .text (decodeWith e c)
          | none => .bytes c)) := by
  obtain ⟨enc⟩ := opts
  refine ⟨fun hl => ?_, fun cs hl => ?_, fun c hl => ?_⟩
  · simp [Data.get, Data.resolve, hr, hk, hl]
  · simp [Data.get, Data.resolve, hr, hk, hl]
  · cases enc <;> simp [Data.get, Data.resolve, hr, hk, hl]

/-- Witness for C3 on the fixture filesystem: missing key, directory key
and file key. -/
theorem C3_witness :
    Data.get sampleState "missing" ⟨some .utf8⟩ = .err .NotFound ∧
    Data.get sampleState "directory" ⟨some .utf8⟩ = .err .InvalidTarget ∧
    Data.get sampleState "text" ⟨some .utf8⟩ = .ok (.text "Hello World") :=
  ⟨(C3_get_contract sampleState "~/.resin" "missing" ⟨some .utf8⟩ rfl (by decide)).1 rfl,
   (C3_get_contract sampleState "~/.resin" "directory" ⟨some .utf8⟩ rfl (by decide)).2.1 [] rfl,
   (C3_get_contract sampleState "~/.resin" "text" ⟨some .utf8⟩ rfl (by decide)).2.2
     "Hello World" rfl⟩

/-- C4: with the registry Set, after a successful `remove(k)` — which
erases the entry at the resolved path, a file or a directory with its whole
subtree — `has(k)` answers `false` and `get(k)` fails with `NotFound`. -/
theorem C4_remove_erases (st st2 : DataState) (k : String) (opts : DataOptions)
    (h : Data.remove st k = (.ok (), st2)) :
    Data.has st2 k = .ok false ∧ Data.get st2 k opts = .err .NotFound := by
  unfold Data.remove at h
  cases hr : Data.resolve st k with
  | thrown e => simp [hr] at h
  | err e => simp [hr] at h
  | ok p =>
    rw [hr] at h
    cases hl : st.fs.lookup p with
    | none => simp [hl] at h
    | some u =>
      simp [hl] at h
      by_cases hp : p = []
      · simp [hp] at h
      · rw [if_neg hp] at h
        simp at h
        have hle := lookup_erase p st.fs hp
        rw [← h]
        constructor
        · simp [Data.has, resolve_fs_update, hr, hle]
        · simp [Data.get, resolve_fs_update, hr, hle]

/-- Witness for C4: removing the fixture directory key. -/
theorem C4_witness :
    Data.has (Data.remove sampleState "directory").2 "directory" = .ok false ∧
    Data.get (Data.remove sampleState "directory").2 "directory" ⟨some .utf8⟩
      = .err .NotFound :=
  C4_remove_erases sampleState ((Data.remove sampleState "directory").2) "directory"
    ⟨some .utf8⟩ rfl

/-- C5: with the registry Set and a nonempty key, `has(k)` never fails: it
returns exactly whether a filesystem entry (file or directory) exists at
the resolved path. -/
theorem C5_has_existence (st : DataState) (root k : String)
    (hr : st.reg = some root) (hk : k ≠ "") :
    Data.has st k = .ok (st.fs.lookup (resolveKey root k)).isSome := by
  simp [Data.has, Data.resolve, hr, hk]

/-- Witness for C5: an existing file, an existing directory and a missing
entry on the fixture filesystem. -/
theorem C5_witness :
    Data.has sampleState "text" = .ok true ∧
    Data.has sampleState "directory" = .ok true ∧
    Data.has sampleState "foobar" = .ok false :=
  ⟨C5_has_existence sampleState "~/.resin" "text" rfl (by decide),
   C5_has_existence sampleState "~/.resin" "directory" rfl (by decide),
   C5_has_existence sampleState "~/.resin" "foobar" rfl (by decide)⟩

/-- C6: with the registry Set, `set(k, v)` creates every missing
intermediate directory along the resolved path — so nested keys succeed
when their parent directories do not yet exist — and writes the value to
the resolved file path, truncating and overwriting any existing file at
that location: under the spec's own `set` preconditions (no proper prefix
of the resolved path occupied by a file, the target not an existing
directory), `set` succeeds and the encoded value is afterwards stored at
the resolved path. -/
theorem C6_set_writes (st : DataState) (root k v : String) (e : Encoding)
    (hr : st.reg = some root) (hk : k ≠ "") (hne : resolveKey root k ≠ [])
    (hpar : ∀ i, i < (resolveKey root k).length →
      isFileEntry (st.fs.lookup ((resolveKey root k).take i)) = false)
    (htgt : isDirEntry (st.fs.lookup (resolveKey root k)) = false) :
    ∃ st2, Data.set st k v ⟨some e⟩ = (.ok (), st2) ∧
      st2.fs.lookup (resolveKey root k) = some (.file (encodeWith e v)) := by
  have hpar2 : ∀ q, q <+: resolveKey root k → q ≠ resolveKey root k →
      isFileEntry (st.fs.lookup q) = false := by
    intro q hq hne2
    have hlt : q.length < (resolveKey root k).length := by
      rcases Nat.lt_or_ge q.length (resolveKey root k).length with h | h
      · exact h
      · exact absurd (hq.eq_of_length (Nat.le_antisymm hq.length_le h)) hne2
    have htake : q = (resolveKey root k).take q.length := List.prefix_iff_eq_take.mp hq
    rw [htake]
    exact hpar q.length hlt
  obtain ⟨t2, ht2⟩ := write_total (resolveKey root k) st.fs (encodeWith e v) hne hpar2 htgt
  refine ⟨{ st with fs := t2 }, ?_, ?_⟩
  · simp [Data.set, Data.resolve, hr, hk, ht2]
  · exact lookup_write _ st.fs t2 _ ht2

/-- Witness for C6: a new file directly beneath the existing fixture
directories, a new file in the existing nested directory, a nested key
whose parent directories do not exist yet, and an overwrite of the
existing fixture file. -/
theorem C6_witness :
    (∃ st2, Data.set sampleState "hello_world.test" "Hello World!" ⟨some .utf8⟩
        = (.ok (), st2) ∧
      st2.fs.lookup (resolveKey "~/.resin" "hello_world.test")
        = some (.file (encodeWith .utf8 "Hello World!"))) ∧
    (∃ st2, Data.set sampleState "nested/hello_world.test" "Nested Hello World!" ⟨some .utf8⟩
        = (.ok (), st2) ∧
      st2.fs.lookup (resolveKey "~/.resin" "nested/hello_world.test")
        = some (.file (encodeWith .utf8 "Nested Hello World!"))) ∧
    (∃ st2, Data.set emptyState "nested/hello_world.test" "Nested Hello World!" ⟨some .utf8⟩
        = (.ok (), st2) ∧
      st2.fs.lookup (resolveKey "~/.resin" "nested/hello_world.test")
        = some (.file (encodeWith .utf8 "Nested Hello World!"))) ∧
    (∃ st2, Data.set sampleState "text" "Changed" ⟨some .utf8⟩ = (.ok (), st2) ∧
      st2.fs.lookup (resolveKey "~/.resin" "text")
        = some (.file (encodeWith .utf8 "Changed"))) :=
  ⟨C6_set_writes sampleState "~/.resin" "hello_world.test" "Hello World!" .utf8
      rfl (by decide) (by decide) (by decide) (by decide),
   C6_set_writes sampleState "~/.resin" "nested/hello_world.test" "Nested Hello World!" .utf8
      rfl (by decide) (by decide) (by decide) (by decide),
   C6_set_writes emptyState "~/.resin" "nested/hello_world.test" "Nested Hello World!" .utf8
      rfl (by decide) (by decide) (by decide) (by decide),
   C6_set_writes sampleState "~/.resin" "text" "Changed" .utf8
      rfl (by decide) (by decide) (by decide) (by decide)⟩

/-- C7: with the registry Set and a nonempty key, `remove(k)` on a resolved
path holding no entry fails with `NotFound` — the same error `get` gives
for a missing entry — and leaves the state unchanged. -/
theorem C7_remove_missing (st : DataState) (root k : String)
    (hr : st.reg = some root) (hk : k ≠ "")
    (hl : st.fs.lookup (resolveKey root k) = none) :
    Data.remove st k = (.err .NotFound, st) := by
  simp [Data.remove, Data.resolve, hr, hk, hl]

/-- Witness for C7 at a key never written on the fixture filesystem. -/
theorem C7_witness : Data.remove sampleState "missing" = (.err .NotFound, sampleState) :=
  C7_remove_missing sampleState "~/.resin" "missing" rfl (by decide) rfl

/-- C8 counterexample: the store accepts the traversal key `..` — with root
`~/.resin` it resolves it to `["~"]`, which is not within the root
`["~", ".resin"]` — so a resolved path does not always stay within the
root. -/
theorem C8_counterexample :
    Data.resolve sampleState ".." = .ok ["~"] ∧
    (normalizePath (segsOf "~/.resin")).isPrefixOf ["~"] = false :=
  ⟨rfl, rfl⟩

/-- C8 amended: containment holds exactly for traversal-free keys — for
every root and every key none of whose segments is `..`, the resolved path
stays within the normalized root. -/
theorem C8_amended_containment (root k : String) (hk : ".." ∉ segsOf k) :
    (normalizePath (segsOf root)).isPrefixOf (resolveKey root k) = true := by
  unfold resolveKey normalizePath
  rw [List.foldl_append, foldl_normStep_no_dotdot (segsOf k) _ hk]
  exact isPrefixOf_append_self _ _

/-- Witness for the amended C8 at the nested fixture key. -/
theorem C8_amended_witness :
    (normalizePath (segsOf "~/.resin")).isPrefixOf (resolveKey "~/.resin" "nested/text")
      = true :=
  C8_amended_containment "~/.resin" "nested/text" (by decide)

/-- C9: registry state machine — from any state, `prefix.set(p)` succeeds
and leaves the registry Set(p), replacing any previously recorded root and
leaving the filesystem untouched; `prefix.clear()` succeeds and leaves the
registry Unset, likewise without filesystem effect. -/
theorem C9_registry_machine (st : DataState) (p : String) :
    (Data.registrySet st p).reg = some p ∧ (Data.registrySet st p).fs = st.fs ∧
    (Data.registryClear st).reg = none ∧ (Data.registryClear st).fs = st.fs :=
  ⟨rfl, rfl, rfl, rfl⟩

/-- C10: outcome exclusivity — every completed `get` hands its callback
exactly one of an error or a value: either an error and no value, or a
value and no error. -/
theorem C10_get_outcome_exclusive (st : DataState) (k : String) (opts : DataOptions)
    (e : Option DataError) (v : Option StoredValue)
    (h : getCallbackArgs st k opts = some (e, v)) :
    (e.isSome = true ∧ v = none) ∨ (e = none ∧ v.isSome = true) := by
  unfold getCallbackArgs at h
  cases hg : Data.get st k opts with
  | thrown e2 => rw [hg] at h; simp at h
  | err e2 =>
    rw [hg] at h
    simp at h
    obtain ⟨he, hv⟩ := h
    subst he
    subst hv
    left
    simp
  | ok v2 =>
    rw [hg] at h
    simp at h
    obtain ⟨he, hv⟩ := h
    subst he
    subst hv
    right
    simp

/-- Witness for C10 at a missing key: the callback receives the `NotFound`
error and no value. -/
theorem C10_witness :
    ((some DataError.NotFound : Option DataError).isSome = true ∧
        (none : Option StoredValue) = none) ∨
      ((some DataError.NotFound : Option DataError) = none ∧
        (none : Option StoredValue).isSome = true) :=
  C10_get_outcome_exclusive sampleState "missing" ⟨some .utf8⟩ (some .NotFound) none rfl
